import Mathlib

/-!
Verification of `src/extensions/amp-smartlinks/0.1/linkmate.js` (the `Linkmate`
class): a shallow embedding of its payload builder (`buildLinksPayload_`), its
reconciler (`mapLinks_`) and its public entry point (`runLinkmate`), together
with theorems settling the specification's claims about them.

Modelling conventions:
* An `Anchor` is represented by the string value of its configured link
  attribute (`anchor[this.linkAttribute_]` in the source); the attribute-name
  indirection is resolved in the embedding, as anchors are otherwise opaque.
* JavaScript `null` / `undefined` fields become `Option`; an empty array is
  `some []` (truthy in JS), matching the truthiness tests in the source.
* The single network round trip (`this.xhr_.fetchJson(...).then(res =>
  res.json())`) is external; its outcome is passed to `runLinkmate` as an
  explicit `FetchOutcome` argument, and the `.then` continuation attached in
  `runLinkmate` is executed on it exactly as the source does.
-/

/-- An anchor element, reduced to the string held in its configured link
attribute (`anchor[this.linkAttribute_]`). -/
structure Anchor where
  link : String
deriving DecidableEq, Repr

/-- A smart link from the API response; only `url` and `auction_id` are read
by the source. -/
structure SmartLink where
  url : String
  auction_id : String
deriving DecidableEq, Repr

/-- One entry of the `links` portion of the request payload, as pushed by
`buildLinksPayload_`. -/
structure LinkPayloadItem where
  raw_url : String
  exclusive_match_requested : Bool
deriving DecidableEq, Repr

/-- One entry of the mapping produced by `mapLinks_`. -/
structure MappedLink where
  anchor : Anchor
  replacementUrl : Option String
deriving DecidableEq, Repr

/-- The redirect URL template of `mapLinks_`
(`https://shop-links.co/` ++ auction id ++ `/?amp=true`). -/
def shopLink (auctionId : String) : String :=
  "https://shop-links.co/" ++ auctionId ++ "/?amp=true"

/-- The anchored literal regex tests of the source (`/#donotlink$/.test(link)`
and `/#locklink$/.test(link)`): such a pattern matches exactly when the string
ends with the literal text, modelled as a suffix test on the character
sequence. -/
def regexTestEnd (pattern link : String) : Bool :=
  pattern.data.isSuffixOf link.data

/-- The body of the `anchorList.forEach(anchor => ...)` loop of
`buildLinksPayload_`: read the link attribute, skip the anchor when the link
matches `/#donotlink$/`, otherwise push an entry marked exclusive when
`this.requestExclusiveLinks_` is set or the link matches `/#locklink$/`. -/
def buildStep (requestExclusiveLinks_ : Bool)
    (postLinks : List LinkPayloadItem) (anchor : Anchor) : List LinkPayloadItem :=
  let link := anchor.link
  if !regexTestEnd "#donotlink" link then
    let exclusive := requestExclusiveLinks_ || regexTestEnd "#locklink" link
    postLinks ++ [{ raw_url := link, exclusive_match_requested := exclusive }]
  else
    postLinks

/-- `Linkmate.buildLinksPayload_`: iterate over `anchorList` with
`forEach`/`push`, starting from the empty `postLinks` array.
`requestExclusiveLinks_` is the `exclusiveLinks` configuration flag. -/
def buildLinksPayload_ (requestExclusiveLinks_ : Bool)
    (anchorList : List Anchor) : List LinkPayloadItem :=
  anchorList.foldl (buildStep requestExclusiveLinks_) []

/-- The object built by the inner arrow function of `mapLinks_` for one smart
link and one anchor: the anchor itself, and a replacement URL that is the
shop-link template when the anchor's link attribute is strictly equal (`===`)
to the smart link's `url`, else `null`. -/
def mapEntry (smartLink : SmartLink) (anchor : Anchor) : MappedLink :=
  { anchor := anchor
    replacementUrl :=
      if anchor.link = smartLink.url then some (shopLink smartLink.auction_id)
      else none }

/-- `Linkmate.mapLinks_`: map every stored smart link over every stored anchor
(`this.linkmateResponse_` outer, `this.anchorList_` inner) and flatten the
matrix with `.flat()`. -/
def mapLinks_ (linkmateResponse_ : List SmartLink)
    (anchorList_ : List Anchor) : List MappedLink :=
  (linkmateResponse_.map (fun smartLink =>
    anchorList_.map (fun anchor => mapEntry smartLink anchor))).flatten

/-- The mutable fields of a `Linkmate` instance that `runLinkmate` reads and
writes: `this.linkmateResponse_` (initially `null`, possibly set to
`undefined` by the response continuation) and `this.anchorList_` (initially
`null`). `none` stands for both `null` and `undefined` (both falsy and both
rejected by the truthiness tests of the source). -/
structure LinkmateState where
  linkmateResponse_ : Option (List SmartLink)
  anchorList_ : Option (List Anchor)
deriving DecidableEq, Repr

/-- The initial state set by the `Linkmate` constructor: both fields `null`. -/
def initialState : LinkmateState := ⟨none, none⟩

/-- One row of the response body's `data` array; `smart_links` is `none` when
the property is absent (reading it yields `undefined` without throwing). -/
structure ResponseRow where
  smart_links : Option (List SmartLink)
deriving DecidableEq, Repr

/-- The parsed JSON response body, restricted to the only path the source
reads: `res.data[0].smart_links`. `data := none` models a body without a
`data` property. -/
structure ResponseBody where
  data : Option (List ResponseRow)
deriving DecidableEq, Repr

/-- Outcome of the external `this.xhr_.fetchJson(fetchUrl, postOptions)
.then(res => res.json())` chain built by `postToLinkmate_`: either the
transport or JSON decode step rejects, or it resolves with a parsed body. -/
inductive FetchOutcome where
  | reject
  | resolve (body : ResponseBody)
deriving DecidableEq, Repr

/-- JavaScript evaluation of `res.data[0].smart_links`: it throws a
`TypeError` (before any assignment) when `res.data` is absent or empty —
indexing `undefined`, or reading a property of `undefined` — and otherwise
yields the property value, which is `undefined` when the first row has no
`smart_links`. -/
inductive ReadResult where
  | threw
  | value (v : Option (List SmartLink))
deriving DecidableEq, Repr

/-- Evaluate `res.data[0].smart_links` on a response body. -/
def readSmartLinks (body : ResponseBody) : ReadResult :=
  match body.data with
  | none => .threw
  | some [] => .threw
  | some (row :: _) => .value row.smart_links

/-- The settled state of the asynchronous half of the result: the promise
either rejects (transport failure, a throwing read of the body, or calling
`.map` on an `undefined` response) or resolves with a mapping. -/
inductive Deferred where
  | rejected
  | resolved (links : List MappedLink)
deriving DecidableEq, Repr

/-- Modelled from the spec: `deepEquals` (imported from `src/json.js`, which
is not among the sources) compares by structural equality, not identity
("structural inequality, not identity"); on lists of anchors this is list
equality. -/
def deepEquals (a b : List Anchor) : Bool := a == b

/-- Modelled from the spec: `TwoStepsResponse` (imported from
`./link-rewriter/two-steps-response`, which is not among the sources) is the
two-phase result carrying the synchronous mapping (possibly absent) and the
deferred asynchronous half (absent when no request was issued). -/
structure TwoStepsResponse where
  syncResponse : Option (List MappedLink)
  asyncResponse : Option Deferred
deriving DecidableEq, Repr

/-- The `.then` continuation that `runLinkmate` attaches to
`postToLinkmate_(anchorList)`: on resolution it runs
`this.linkmateResponse_ = res.data[0].smart_links; this.anchorList_ =
anchorList; return this.mapLinks_()`, and on rejection (or a throw inside the
continuation) the deferred half rejects with the state as the continuation
left it. -/
def thenContinuation (st : LinkmateState) (anchorList : List Anchor)
    (outcome : FetchOutcome) : LinkmateState × Deferred :=
  match outcome with
  | .reject => (st, .rejected)
  | .resolve body =>
    match readSmartLinks body with
    | .threw => (st, .rejected)
    | .value v =>
      let st1 : LinkmateState := ⟨v, some anchorList⟩
      match v with
      | none => (st1, .rejected)
      | some links => (st1, .resolved (mapLinks_ links anchorList))

/-- The guard of the second `if` of `runLinkmate`:
`!this.linkmateResponse_ || (this.anchorList_ &&
!deepEquals(this.anchorList_, anchorList))` — exactly when a new request is
posted to the API. -/
def needsRequest (st : LinkmateState) (anchorList : List Anchor) : Bool :=
  st.linkmateResponse_.isNone ||
    (match st.anchorList_ with
     | some stored => !deepEquals stored anchorList
     | none => false)

/-- The guard of the first `if` of `runLinkmate`:
`this.linkmateResponse_ && this.anchorList_ &&
!deepEquals(this.anchorList_, anchorList)` — exactly when a synchronous
mapping is computed, by `this.mapLinks_()`, which reads the stored (not yet
updated) `this.anchorList_`. -/
def syncMapped (st : LinkmateState) (anchorList : List Anchor) :
    Option (List MappedLink) :=
  match st.linkmateResponse_, st.anchorList_ with
  | some resp, some stored =>
    if !deepEquals stored anchorList then some (mapLinks_ resp stored) else none
  | _, _ => none

/-- `Linkmate.runLinkmate(anchorList)`, with the mutable fields passed and
returned explicitly and the network outcome supplied as an argument. Mirrors
the source: the synchronous branch calls `this.mapLinks_()` on the stored
fields; the request branch attaches `thenContinuation` to the posted request;
the final `else` branch stores the new anchor list and returns only the
synchronous value. -/
def runLinkmate (st : LinkmateState) (anchorList : List Anchor)
    (outcome : FetchOutcome) : LinkmateState × TwoStepsResponse :=
  let syncMappedLinks := syncMapped st anchorList
  if needsRequest st anchorList then
    let r := thenContinuation st anchorList outcome
    (r.1, ⟨syncMappedLinks, some r.2⟩)
  else
    (⟨st.linkmateResponse_, some anchorList⟩, ⟨syncMappedLinks, none⟩)

/-- The payload that a call to `runLinkmate` posts, if it posts one: exactly
when the request guard holds, `postToLinkmate_(anchorList)` builds the `links`
part of its payload as `this.buildLinksPayload_(anchorList)` from the anchor
list of the current call. -/
def issuedPayload (requestExclusiveLinks_ : Bool) (st : LinkmateState)
    (anchorList : List Anchor) : Option (List LinkPayloadItem) :=
  if needsRequest st anchorList then
    some (buildLinksPayload_ requestExclusiveLinks_ anchorList)
  else none

/-- The invariant every reachable `Linkmate` instance satisfies: a cached
response implies a cached anchor list. It holds in the constructor state and
is preserved by every call (see `stateInv_initial`, `stateInv_preserved`). -/
def stateInv (st : LinkmateState) : Prop :=
  st.linkmateResponse_.isSome = true → st.anchorList_.isSome = true

/-! ### Helper lemmas -/

/-- `deepEquals` coincides with structural list equality. -/
theorem deepEquals_iff (a b : List Anchor) : deepEquals a b = true ↔ a = b := by
  simp [deepEquals]

/-- The fold of `buildLinksPayload_` over an arbitrary accumulator appends the
filtered-and-classified anchors to it. -/
theorem buildLinksPayload_foldl_eq (flag : Bool) (l : List Anchor)
    (acc : List LinkPayloadItem) :
    l.foldl (buildStep flag) acc =
    acc ++ (l.filter (fun a => !regexTestEnd "#donotlink" a.link)).map
      (fun a => ⟨a.link, flag || regexTestEnd "#locklink" a.link⟩) := by
  induction l generalizing acc with
  | nil => simp
  | cons a l ih =>
    rw [List.foldl_cons, ih, List.filter_cons]
    cases h : regexTestEnd "#donotlink" a.link with
    | false =>
      rw [show buildStep flag acc a =
            acc ++ [⟨a.link, flag || regexTestEnd "#locklink" a.link⟩] from by
          simp [buildStep, h]]
      simp
    | true =>
      rw [show buildStep flag acc a = acc from by simp [buildStep, h]]
      simp

/-- `buildLinksPayload_` filters out `#donotlink` anchors and maps the rest to
payload entries, in order. -/
theorem buildLinksPayload_eq (flag : Bool) (anchorList : List Anchor) :
    buildLinksPayload_ flag anchorList =
      (anchorList.filter (fun a => !regexTestEnd "#donotlink" a.link)).map
        (fun a => ⟨a.link, flag || regexTestEnd "#locklink" a.link⟩) := by
  simpa using buildLinksPayload_foldl_eq flag anchorList []

/-- `mapLinks_` on a cons: the row of the first smart link, then the rest. -/
theorem mapLinks_cons (s : SmartLink) (S : List SmartLink) (A : List Anchor) :
    mapLinks_ (s :: S) A = A.map (mapEntry s) ++ mapLinks_ S A := by
  simp [mapLinks_]

/-- The mapping has one entry per (smart link, anchor) pair. -/
theorem mapLinks_length (S : List SmartLink) (A : List Anchor) :
    (mapLinks_ S A).length = S.length * A.length := by
  induction S with
  | nil => simp [mapLinks_]
  | cons s S ih =>
    simp only [mapLinks_cons, List.length_append, List.length_map, List.length_cons, ih]
    ring

/-- The flattened mapping is indexed row-major: entry `i * |A| + j` is the
entry for the `i`-th smart link and the `j`-th anchor. -/
theorem mapLinks_getElem (S : List SmartLink) (A : List Anchor) (i j : ℕ)
    (hi : i < S.length) (hj : j < A.length) :
    (mapLinks_ S A)[i * A.length + j]? =
      some (mapEntry (S.get ⟨i, hi⟩) (A.get ⟨j, hj⟩)) := by
  induction S generalizing i with
  | nil => simp at hi
  | cons s S ih =>
    cases i with
    | zero =>
      rw [mapLinks_cons, Nat.zero_mul, Nat.zero_add]
      rw [List.getElem?_append_left (by simpa using hj)]
      simp [List.getElem?_map, List.getElem?_eq_getElem hj]
    | succ i =>
      rw [mapLinks_cons, List.getElem?_append_right (by simp [Nat.succ_mul]; omega)]
      have harith : (i + 1) * A.length + j - (A.map (mapEntry s)).length =
          i * A.length + j := by
        simp [Nat.succ_mul]; omega
      rw [harith]
      exact ih i (by simpa using Nat.lt_of_succ_lt_succ (Nat.succ_lt_succ hi))

/-- The reachability invariant holds in the constructor state. -/
theorem stateInv_initial : stateInv initialState := by
  intro h
  simp [initialState] at h

/-- The reachability invariant is preserved by every call, whatever the
network outcome. -/
theorem stateInv_preserved (st : LinkmateState) (anchorList : List Anchor)
    (outcome : FetchOutcome) (hInv : stateInv st) :
    stateInv (runLinkmate st anchorList outcome).1 := by
  unfold stateInv at hInv ⊢
  cases hReq : needsRequest st anchorList with
  | false => simp [runLinkmate, hReq]
  | true =>
    cases outcome with
    | reject => simpa [runLinkmate, hReq, thenContinuation] using hInv
    | resolve body =>
      cases hr : readSmartLinks body with
      | threw => simpa [runLinkmate, hReq, thenContinuation, hr] using hInv
      | value v =>
        cases v with
        | none => simp [runLinkmate, hReq, thenContinuation, hr]
        | some links => simp [runLinkmate, hReq, thenContinuation, hr]

/-! ### Claim theorems -/

/-- C1 (evaluation at the failing input): with a cached response for
`http://b.com`, stored anchor list `[http://a.com]` and current anchors
`[http://b.com]`, the synchronous mapping returned by `runLinkmate` is
computed against the stored anchor list, not the current one: its single
entry names the stale anchor with a `null` replacement, and it differs from
the mapping of the cached response over the current anchors. -/
theorem runLinkmate_syncMapping_uses_stored_anchorList :
    (runLinkmate ⟨some [⟨"http://b.com", "X1"⟩], some [⟨"http://a.com"⟩]⟩
        [⟨"http://b.com"⟩] .reject).2.syncResponse =
      some [⟨⟨"http://a.com"⟩, none⟩] ∧
    (runLinkmate ⟨some [⟨"http://b.com", "X1"⟩], some [⟨"http://a.com"⟩]⟩
        [⟨"http://b.com"⟩] .reject).2.syncResponse ≠
      some (mapLinks_ [⟨"http://b.com", "X1"⟩] [⟨"http://b.com"⟩]) := by
  decide

/-- C2: for every stored response list `S` and stored anchor list `A`, the
mapping is a flat sequence of exactly `|S| * |A|` entries ordered
response-outer and anchor-inner: the entry at position `i * |A| + j` is built
from the `i`-th smart link and the `j`-th anchor, with `replacementUrl` the
shop-link redirect embedding the smart link's `auction_id` when the anchor's
link attribute equals the smart link's `url`, and `null` otherwise. -/
theorem mapLinks_length_and_entries (S : List SmartLink) (A : List Anchor) :
    (mapLinks_ S A).length = S.length * A.length ∧
    ∀ (i j : ℕ) (hi : i < S.length) (hj : j < A.length),
      (mapLinks_ S A)[i * A.length + j]? =
        some ⟨A.get ⟨j, hj⟩,
          if (A.get ⟨j, hj⟩).link = (S.get ⟨i, hi⟩).url
          then some (shopLink (S.get ⟨i, hi⟩).auction_id) else none⟩ :=
  ⟨mapLinks_length S A, fun i j hi hj => mapLinks_getElem S A i j hi hj⟩

/-- Witness for C2 at the spec's example response and anchors. -/
theorem mapLinks_length_and_entries_witness :
    (mapLinks_ [⟨"http://a.com", "X1"⟩]
        [⟨"http://a.com"⟩, ⟨"http://b.com"⟩]).length = 1 * 2 ∧
    (mapLinks_ [⟨"http://a.com", "X1"⟩]
        [⟨"http://a.com"⟩, ⟨"http://b.com"⟩])[0 * 2 + 1]? =
      some ⟨⟨"http://b.com"⟩, none⟩ := by
  have h := mapLinks_length_and_entries [⟨"http://a.com", "X1"⟩]
    [⟨"http://a.com"⟩, ⟨"http://b.com"⟩]
  exact ⟨h.1, (h.2 0 1 (by decide) (by decide)).trans (by decide)⟩

/-- C3 (counterexample to the claim as stated): a request issued from the
initial state whose response resolves with the well-formed body
`data: [ {} ]` (first row present, `smart_links` absent) makes the deferred
half reject while the state fields do not keep their prior values: the anchor
list field is overwritten. -/
theorem runLinkmate_overwrite_on_failure_counterexample :
    (runLinkmate initialState [⟨"http://a.com"⟩]
        (.resolve ⟨some [⟨none⟩]⟩)).2.asyncResponse = some .rejected ∧
    (runLinkmate initialState [⟨"http://a.com"⟩]
        (.resolve ⟨some [⟨none⟩]⟩)).1 ≠ initialState := by
  decide

/-- C3 (amended): for every call that issues a request, if the asynchronous
operation fails before the read of `data[0]` completes — the transport or
JSON decode rejects, or the body makes `res.data[0].smart_links` throw
(`data` absent or empty) — then the deferred half rejects and both state
fields are left exactly as they were before the call. -/
theorem runLinkmate_failure_state_unchanged (st : LinkmateState)
    (anchorList : List Anchor) (outcome : FetchOutcome)
    (hReq : needsRequest st anchorList = true)
    (hFail : outcome = .reject ∨
      ∃ body, outcome = .resolve body ∧ readSmartLinks body = .threw) :
    (runLinkmate st anchorList outcome).2.asyncResponse = some .rejected ∧
    (runLinkmate st anchorList outcome).1 = st := by
  rcases hFail with rfl | ⟨body, rfl, hThrew⟩
  · simp [runLinkmate, hReq, thenContinuation]
  · simp [runLinkmate, hReq, thenContinuation, hThrew]

/-- Witness for C3 (amended): a transport rejection from the initial state. -/
theorem runLinkmate_failure_state_unchanged_witness :
    (runLinkmate initialState [⟨"http://a.com"⟩] .reject).2.asyncResponse =
      some .rejected ∧
    (runLinkmate initialState [⟨"http://a.com"⟩] .reject).1 = initialState :=
  runLinkmate_failure_state_unchanged initialState [⟨"http://a.com"⟩] .reject
    (by decide) (Or.inl rfl)

/-- C4: once a response is cached, two successive calls whose anchor lists
are structurally equal to the cached anchor set make the second call issue no
request and return only a (null) synchronous result, and leave the state
after the second call equal to the state after the first. -/
theorem runLinkmate_idempotent_on_equal_anchors (st : LinkmateState)
    (resp : List SmartLink) (stored cur1 cur2 : List Anchor)
    (o1 o2 : FetchOutcome)
    (hResp : st.linkmateResponse_ = some resp)
    (hStored : st.anchorList_ = some stored)
    (h1 : deepEquals stored cur1 = true)
    (h2 : deepEquals stored cur2 = true) :
    (runLinkmate (runLinkmate st cur1 o1).1 cur2 o2).2.asyncResponse = none ∧
    (runLinkmate (runLinkmate st cur1 o1).1 cur2 o2).2.syncResponse = none ∧
    (runLinkmate (runLinkmate st cur1 o1).1 cur2 o2).1 =
      (runLinkmate st cur1 o1).1 := by
  obtain ⟨r0, a0⟩ := st
  simp only at hResp hStored
  subst hResp; subst hStored
  obtain rfl : stored = cur1 := (deepEquals_iff _ _).mp h1
  obtain rfl : stored = cur2 := (deepEquals_iff _ _).mp h2
  simp [runLinkmate, needsRequest, syncMapped, deepEquals]

/-- Witness for C4 at a concrete cached state. -/
theorem runLinkmate_idempotent_on_equal_anchors_witness :
    (runLinkmate (runLinkmate ⟨some [⟨"http://a.com", "X1"⟩],
          some [⟨"http://a.com"⟩]⟩ [⟨"http://a.com"⟩] .reject).1
        [⟨"http://a.com"⟩] .reject).2.asyncResponse = none ∧
    (runLinkmate (runLinkmate ⟨some [⟨"http://a.com", "X1"⟩],
          some [⟨"http://a.com"⟩]⟩ [⟨"http://a.com"⟩] .reject).1
        [⟨"http://a.com"⟩] .reject).2.syncResponse = none ∧
    (runLinkmate (runLinkmate ⟨some [⟨"http://a.com", "X1"⟩],
          some [⟨"http://a.com"⟩]⟩ [⟨"http://a.com"⟩] .reject).1
        [⟨"http://a.com"⟩] .reject).1 =
      (runLinkmate ⟨some [⟨"http://a.com", "X1"⟩],
          some [⟨"http://a.com"⟩]⟩ [⟨"http://a.com"⟩] .reject).1 :=
  runLinkmate_idempotent_on_equal_anchors
    ⟨some [⟨"http://a.com", "X1"⟩], some [⟨"http://a.com"⟩]⟩
    [⟨"http://a.com", "X1"⟩] [⟨"http://a.com"⟩] [⟨"http://a.com"⟩]
    [⟨"http://a.com"⟩] .reject .reject rfl rfl (by decide) (by decide)

/-- C5: the state fields are mutated only after a successful transport
response: in any state satisfying the constructor-reachable invariant (a
cached response implies a cached anchor list), a call whose execution path
contains no resolved transport success — no request was issued, or the
transport rejected — leaves both fields with the values they had at entry. -/
theorem runLinkmate_state_frame (st : LinkmateState) (anchorList : List Anchor)
    (outcome : FetchOutcome)
    (hInv : st.linkmateResponse_.isSome → st.anchorList_.isSome)
    (hPath : outcome = .reject ∨ needsRequest st anchorList = false) :
    (runLinkmate st anchorList outcome).1 = st := by
  obtain ⟨resp, anchors⟩ := st
  cases hReq : needsRequest ⟨resp, anchors⟩ anchorList with
  | true =>
    rcases hPath with rfl | hFalse
    · simp [runLinkmate, hReq, thenContinuation]
    · rw [hFalse] at hReq; exact absurd hReq (by simp)
  | false =>
    have hrespSome : resp.isSome = true := by
      cases resp with
      | none => simp [needsRequest] at hReq
      | some r => rfl
    have hanch := hInv hrespSome
    cases anchors with
    | none => simp at hanch
    | some stored =>
      have hde : deepEquals stored anchorList = true := by
        cases hd : deepEquals stored anchorList with
        | true => rfl
        | false => simp [needsRequest, hd, hrespSome] at hReq
      obtain rfl : stored = anchorList := (deepEquals_iff _ _).mp hde
      simp [runLinkmate, hReq]

/-- Witness for C5: a transport rejection from the initial state. -/
theorem runLinkmate_state_frame_witness :
    (runLinkmate initialState [⟨"http://a.com"⟩] .reject).1 = initialState :=
  runLinkmate_state_frame initialState [⟨"http://a.com"⟩] .reject
    (by decide) (Or.inl rfl)

/-- C6: when the cached response is unset, or the cached anchor set is set
and structurally differs from the current anchors, a request is issued and
its payload is built from the current anchors; on a success whose body
carries `data[0].smart_links`, the state becomes exactly that list paired
with the current anchors, and the deferred half resolves to the mapping of
the new response over the new anchor list. -/
theorem runLinkmate_success_updates_state (st : LinkmateState)
    (anchorList : List Anchor) (body : ResponseBody)
    (row : ResponseRow) (rest : List ResponseRow) (links : List SmartLink)
    (hCond : st.linkmateResponse_ = none ∨
      (∃ stored, st.anchorList_ = some stored ∧ stored ≠ anchorList))
    (hData : body.data = some (row :: rest))
    (hLinks : row.smart_links = some links) :
    (∀ flag, issuedPayload flag st anchorList =
      some (buildLinksPayload_ flag anchorList)) ∧
    (runLinkmate st anchorList (.resolve body)).1 =
      ⟨some links, some anchorList⟩ ∧
    (runLinkmate st anchorList (.resolve body)).2.asyncResponse =
      some (.resolved (mapLinks_ links anchorList)) := by
  have hReq : needsRequest st anchorList = true := by
    rcases hCond with hNone | ⟨stored, hStored, hNe⟩
    · simp [needsRequest, hNone]
    · have hbe : (stored == anchorList) = false := beq_eq_false_iff_ne.mpr hNe
      simp [needsRequest, hStored, deepEquals, hbe]
  refine ⟨fun flag => by simp [issuedPayload, hReq], ?_, ?_⟩
  · simp [runLinkmate, hReq, thenContinuation, readSmartLinks, hData, hLinks]
  · simp [runLinkmate, hReq, thenContinuation, readSmartLinks, hData, hLinks]

/-- Witness for C6: a first call from the initial state with a successful
response carrying one smart link. -/
theorem runLinkmate_success_updates_state_witness :
    issuedPayload false initialState [⟨"http://a.com"⟩] =
      some (buildLinksPayload_ false [⟨"http://a.com"⟩]) ∧
    (runLinkmate initialState [⟨"http://a.com"⟩]
        (.resolve ⟨some [⟨some [⟨"http://a.com", "X1"⟩]⟩]⟩)).1 =
      ⟨some [⟨"http://a.com", "X1"⟩], some [⟨"http://a.com"⟩]⟩ ∧
    (runLinkmate initialState [⟨"http://a.com"⟩]
        (.resolve ⟨some [⟨some [⟨"http://a.com", "X1"⟩]⟩]⟩)).2.asyncResponse =
      some (.resolved (mapLinks_ [⟨"http://a.com", "X1"⟩] [⟨"http://a.com"⟩])) := by
  have h := runLinkmate_success_updates_state initialState [⟨"http://a.com"⟩]
    ⟨some [⟨some [⟨"http://a.com", "X1"⟩]⟩]⟩ ⟨some [⟨"http://a.com", "X1"⟩]⟩
    [] [⟨"http://a.com", "X1"⟩] (Or.inl rfl) rfl rfl
  exact ⟨h.1 false, h.2.1, h.2.2⟩

/-- C7: the built payload contains no entry whose `raw_url` ends with the
literal suffix `#donotlink`, and it is exactly the anchors not so suffixed,
in anchor-list order, each contributing one entry whose `raw_url` is the
value of its configured link attribute. -/
theorem buildLinksPayload_excludes_donotlink (flag : Bool)
    (anchorList : List Anchor) :
    (∀ item ∈ buildLinksPayload_ flag anchorList,
      regexTestEnd "#donotlink" item.raw_url = false) ∧
    buildLinksPayload_ flag anchorList =
      (anchorList.filter (fun a => !regexTestEnd "#donotlink" a.link)).map
        (fun a => ⟨a.link, flag || regexTestEnd "#locklink" a.link⟩) := by
  have he := buildLinksPayload_eq flag anchorList
  refine ⟨?_, he⟩
  intro item hmem
  rw [he] at hmem
  obtain ⟨a, ha, rfl⟩ := List.mem_map.mp hmem
  simpa using (List.mem_filter.mp ha).2

/-- Witness for C7: the surviving entry of a list with one `#donotlink`
anchor. -/
theorem buildLinksPayload_excludes_donotlink_witness :
    regexTestEnd "#donotlink"
      (LinkPayloadItem.mk "http://b.com" false).raw_url = false :=
  (buildLinksPayload_excludes_donotlink false
      [⟨"http://a.com#donotlink"⟩, ⟨"http://b.com"⟩]).1
    ⟨"http://b.com", false⟩ (by decide)

/-- C8: every emitted payload entry is marked `exclusive_match_requested`
exactly when the configured exclusive-links flag is set or the anchor's link
(the entry's `raw_url`) ends in `#locklink`. -/
theorem buildLinksPayload_exclusive_iff (flag : Bool)
    (anchorList : List Anchor) :
    ∀ item ∈ buildLinksPayload_ flag anchorList,
      (item.exclusive_match_requested = true ↔
        (flag = true ∨ regexTestEnd "#locklink" item.raw_url = true)) := by
  intro item hmem
  rw [buildLinksPayload_eq] at hmem
  obtain ⟨a, ha, rfl⟩ := List.mem_map.mp hmem
  simp

/-- Witness for C8: a `#locklink` anchor with the flag off. -/
theorem buildLinksPayload_exclusive_iff_witness :
    ((LinkPayloadItem.mk "http://b.com#locklink" true).exclusive_match_requested
        = true ↔
      (false = true ∨ regexTestEnd "#locklink"
        (LinkPayloadItem.mk "http://b.com#locklink" true).raw_url = true)) :=
  buildLinksPayload_exclusive_iff false [⟨"http://b.com#locklink"⟩]
    ⟨"http://b.com#locklink", true⟩ (by decide)

/-- C9: whenever `runLinkmate` returns without issuing a request (the
asynchronous half of its result is absent), the synchronous mapping of the
result is `null`. -/
theorem runLinkmate_sync_implies_request (st : LinkmateState)
    (anchorList : List Anchor) (outcome : FetchOutcome)
    (h : (runLinkmate st anchorList outcome).2.asyncResponse = none) :
    (runLinkmate st anchorList outcome).2.syncResponse = none := by
  obtain ⟨resp, anchors⟩ := st
  cases resp with
  | none => simp [runLinkmate, needsRequest] at h
  | some r =>
    cases anchors with
    | none => simp [runLinkmate, needsRequest, syncMapped]
    | some stored =>
      cases hEq : deepEquals stored anchorList with
      | false => simp [runLinkmate, needsRequest, hEq] at h
      | true => simp [runLinkmate, needsRequest, syncMapped, hEq]

/-- Witness for C9: a call with the cached anchor list unchanged. -/
theorem runLinkmate_sync_implies_request_witness :
    (runLinkmate ⟨some [⟨"http://a.com", "X1"⟩], some [⟨"http://a.com"⟩]⟩
        [⟨"http://a.com"⟩] .reject).2.syncResponse = none :=
  runLinkmate_sync_implies_request
    ⟨some [⟨"http://a.com", "X1"⟩], some [⟨"http://a.com"⟩]⟩
    [⟨"http://a.com"⟩] .reject (by decide)

/-- C10: the `#donotlink` exclusion applies only to payload building: in the
mapping, an anchor whose link ends in `#donotlink` is still paired with every
smart link of the stored response, receiving the shop-link replacement
exactly when its link attribute equals the smart link's `url`. -/
theorem mapLinks_pairs_donotlink_anchors (S : List SmartLink) (A : List Anchor)
    (s : SmartLink) (a : Anchor) (hs : s ∈ S) (ha : a ∈ A)
    (_hdnl : regexTestEnd "#donotlink" a.link = true) :
    (⟨a, if a.link = s.url then some (shopLink s.auction_id) else none⟩ :
      MappedLink) ∈ mapLinks_ S A := by
  unfold mapLinks_
  rw [List.mem_flatten]
  exact ⟨A.map (fun anchor => mapEntry s anchor),
    List.mem_map_of_mem _ hs, List.mem_map_of_mem _ ha⟩

/-- Witness for C10: a matching `#donotlink` anchor is mapped to a
shop-link. -/
theorem mapLinks_pairs_donotlink_anchors_witness :
    (⟨⟨"http://a.com#donotlink"⟩,
        if ("http://a.com#donotlink" : String) = "http://a.com#donotlink"
        then some (shopLink "X1") else none⟩ : MappedLink) ∈
      mapLinks_ [⟨"http://a.com#donotlink", "X1"⟩]
        [⟨"http://a.com#donotlink"⟩] :=
  mapLinks_pairs_donotlink_anchors
    [⟨"http://a.com#donotlink", "X1"⟩] [⟨"http://a.com#donotlink"⟩]
    ⟨"http://a.com#donotlink", "X1"⟩ ⟨"http://a.com#donotlink"⟩
    (by decide) (by decide) (by decide)
